
import Mathlib

/-!
# Verification of the `bump_version` pre-commit helper

A shallow embedding of `scripts/bump_version.py`, a pre-commit helper that
bumps the patch component of the `project.version` field in `pyproject.toml`
when `src/` changes are staged.

Python strings are modelled as Lean `String`; the string operations used by
the script (`split`, `strip`, `replace`, `startswith`, `int()`, `str()`) are
implemented here as structurally recursive functions over `List Char` so that
all runs evaluate inside the kernel.  External collaborators (the `git`
subprocesses, the filesystem, and the `tomllib` parser) are modelled as an
explicit environment record.
-/

namespace BumpVersion

/-- The whitespace characters matched by Python's `\s` regex class and
stripped by `str.strip()` (ASCII range). -/
def isPySpace (c : Char) : Bool :=
  c = ' ' || c = '\t' || c = '\n' || c = '\r' || c = '\x0b' || c = '\x0c'

/-- Split a character list on a separator character; models Python
`str.split(sep)` for a one-character separator (`"".split(sep) == [""]`). -/
def splitOnCharL (sep : Char) : List Char → List (List Char)
  | [] => [[]]
  | c :: rest =>
    let r := splitOnCharL sep rest
    if c = sep then [] :: r
    else
      match r with
      | h :: t => (c :: h) :: t
      | [] => [[c]]

/-- Strip leading and trailing Python whitespace; models `str.strip()`. -/
def stripChars (cs : List Char) : List Char :=
  ((cs.dropWhile isPySpace).reverse.dropWhile isPySpace).reverse

/-- `isPre p l` models Python `l.startswith(p)`. -/
def isPre : List Char → List Char → Bool
  | [], _ => true
  | _ :: _, [] => false
  | a :: as, b :: bs => if a = b then isPre as bs else false

/-- Consume an expected literal at the head of the input, returning the
remainder on success. -/
def dropLit : List Char → List Char → Option (List Char)
  | [], cs => some cs
  | _ :: _, [] => none
  | l :: ls, c :: cs => if c = l then dropLit ls cs else none

/-- Accumulating digit parser: decimal digits with single underscores allowed
between digits, as accepted by Python's `int()`. -/
def parseDigitsAux (acc : Nat) : List Char → Option Nat
  | [] => some acc
  | c :: rest =>
    if c.isDigit then parseDigitsAux (acc * 10 + (c.toNat - 48)) rest
    else if c = '_' then
      match rest with
      | [] => none
      | d :: rest2 =>
        if d.isDigit then parseDigitsAux (acc * 10 + (d.toNat - 48)) rest2
        else none
    else none

/-- Parse a non-empty digit sequence (with Python's underscore rule). -/
def parseDigits : List Char → Option Nat
  | [] => none
  | c :: rest => if c.isDigit then parseDigitsAux (c.toNat - 48) rest else none

/-- Sign handling of Python `int()` after whitespace stripping. -/
def pyIntCore (cs : List Char) : Option Int :=
  match cs with
  | [] => none
  | c :: rest =>
    if c = '+' then (parseDigits rest).map (fun n => (n : Int))
    else if c = '-' then (parseDigits rest).map (fun n => -(n : Int))
    else (parseDigits cs).map (fun n => (n : Int))

/-- Python `int(s)` on a string: strip whitespace, optional sign, decimal
digits (ASCII model); `none` models a raised `ValueError`. -/
def pyInt (s : String) : Option Int :=
  pyIntCore (stripChars s.data)

/-- Numeric value of an ASCII digit character. -/
def digitVal (c : Char) : Nat := c.toNat - 48

/-- Value of a digit string, most significant first. -/
def valDigits (l : List Char) : Nat := l.foldl (fun a c => a * 10 + digitVal c) 0

/-- Python `version.split(".")`. -/
def pySplitDot (s : String) : List String :=
  (splitOnCharL '.' s.data).map String.mk

/-- The errors the script can raise. -/
inductive PyError where
  | valueError (msg : String)
  | runtimeError (msg : String)
  | tomlError
  deriving DecidableEq, Repr

instance {ε α : Type} [DecidableEq ε] [DecidableEq α] : DecidableEq (Except ε α) := fun x y =>
  match x, y with
  | .error a, .error b =>
    if h : a = b then .isTrue (by rw [h]) else .isFalse (by simp [h])
  | .ok a, .ok b =>
    if h : a = b then .isTrue (by rw [h]) else .isFalse (by simp [h])
  | .error _, .ok _ => .isFalse (by simp)
  | .ok _, .error _ => .isFalse (by simp)

/-- `_increment_patch` from `scripts/bump_version.py`: split on dots, require
exactly three components, parse only the **last** component with `int()`,
increment it, and re-join with dots. -/
def incrementPatch (version : String) : Except PyError String :=
  match pySplitDot version with
  | [a, b, c] =>
    match pyInt c with
    | none => .error (.valueError ("invalid literal for int() with base 10: " ++ c))
    | some n => .ok (a ++ "." ++ b ++ "." ++ toString (n + 1))
  | _ => .error (.valueError ("Version " ++ version ++ " does not follow major.minor.patch format"))

/-! ## The `VERSION_LINE` regex

`VERSION_LINE = re.compile(r'^(\s*version\s*=\s*")(.*?)(")\s*$', re.MULTILINE)`
used by `_update_version_line` via `VERSION_LINE.sub(..., original, count=1)`.
The matcher below implements exactly this one pattern's Python semantics:

* `^` anchors at the start of the text or right after a newline (MULTILINE);
* the `\s*` runs before the literals are deterministic (maximal munch, since
  none of `v`, `=`, `"` is whitespace);
* `(.*?)` is lazy and `.` never matches a newline: the closing quote is the
  first `"` after which `\s*$` can succeed;
* the trailing greedy `\s*$` consumes the longest whitespace run that leaves
  the position at the end of the text or just before a newline — so trailing
  whitespace on the version line (and, before a blank line or at end of file,
  the newline run itself except its last newline) is part of the match and is
  dropped by the replacement `\1<new>\3`.
-/

/-- Split a whitespace run as `alpha ++ '\n' :: beta` where `beta` contains no
newline; `none` if the run has no newline at all. -/
def splitAtLastNewline : List Char → Option (List Char × List Char)
  | [] => none
  | c :: rest =>
    match splitAtLastNewline rest with
    | some (a, k) => some (c :: a, k)
    | none => if c = '\n' then some ([], c :: rest) else none

/-- The greedy `\s*$` tail of the pattern, applied right after the closing
quote: returns the remainder of the text after the matched region (i.e. the
characters the match does **not** consume), or `none` if `\s*$` cannot match
here. -/
def tailConsume (rest : List Char) : Option (List Char) :=
  if (rest.dropWhile isPySpace).isEmpty then some []
  else
    match splitAtLastNewline (rest.takeWhile isPySpace) with
    | some (_, keep) => some (keep ++ rest.dropWhile isPySpace)
    | none => none

/-- Scan for the lazy group `(.*?)` followed by `(")\s*$`: returns the group-2
text and the unconsumed remainder, taking the first closing quote at which
`\s*$` succeeds; fails on a newline (`.` does not match `'\n'`). -/
def findClose : List Char → Option (List Char × List Char)
  | [] => none
  | c :: rest =>
    if c = '\n' then none
    else if c = '"' then
      match tailConsume rest with
      | some rest2 => some ([], rest2)
      | none => (findClose rest).map (fun p => (c :: p.1, p.2))
    else (findClose rest).map (fun p => (c :: p.1, p.2))

/-- Try to match the whole pattern at the current position (a line start):
returns group 1 (`\s*version\s*=\s*"`) and the unconsumed remainder after the
full match. -/
def tryMatch (cs : List Char) : Option (List Char × List Char) :=
  match dropLit "version".data (cs.dropWhile isPySpace) with
  | none => none
  | some cs2 =>
    match cs2.dropWhile isPySpace with
    | [] => none
    | c3 :: cs4 =>
      if c3 = '=' then
        match cs4.dropWhile isPySpace with
        | [] => none
        | c5 :: cs6 =>
          if c5 = '"' then
            match findClose cs6 with
            | some (_, rest) =>
              some (cs.takeWhile isPySpace ++ "version".data ++ cs2.takeWhile isPySpace
                ++ '=' :: cs4.takeWhile isPySpace ++ ['"'], rest)
            | none => none
          else none
      else none

/-- `VERSION_LINE.sub(lambda m: m.group(1) + new + m.group(3), text, count=1)`
at the character level: try the pattern at every line start from left to
right and splice `group1 ++ new ++ '"'` in place of the first match; `none`
if there is no match anywhere (Python's `sub` then returns the text
unchanged). -/
def regexSubAux (newV : List Char) : Bool → List Char → Option (List Char)
  | _, [] => none
  | b, c :: rest =>
    if b then
      match tryMatch (c :: rest) with
      | some (g1, r2) => some (g1 ++ newV ++ '"' :: r2)
      | none => (regexSubAux newV (c = '\n') rest).map (c :: ·)
    else (regexSubAux newV (c = '\n') rest).map (c :: ·)

/-- The first-match substitution on `String`s. -/
def versionLineSub (newV original : String) : Option String :=
  (regexSubAux newV.data true original.data).map String.mk

/-- `_update_version_line` from `scripts/bump_version.py`: substitute the
first `VERSION_LINE` match (count=1) and raise `RuntimeError` if the result
is byte-identical to the original (in particular when there is no match). -/
def updateVersionLine (original newV : String) : Except PyError String :=
  match versionLineSub newV original with
  | some r =>
    if r = original then
      .error (.runtimeError "Failed to locate version line in pyproject.toml")
    else .ok r
  | none => .error (.runtimeError "Failed to locate version line in pyproject.toml")

/-! ## The external world

`bump_version` talks to three collaborators: the `git` executable
(`git diff --cached --name-only`, `git show HEAD:pyproject.toml`,
`git add pyproject.toml`), the filesystem (`pyproject.toml`), and the
external `tomllib` parser.  They are modelled as an environment record; a
`.error` value stands for a `subprocess.CalledProcessError` of the
corresponding command, and `tomlVersion` stands for
`tomllib.loads(text)["project"]["version"]` (`none` models a raised
parse/key error). -/
structure Env where
  gitDiffCached : Except Unit String
  gitShowHead : Except Unit String
  gitAddOk : Bool
  pyproject : String
  tomlVersion : String → Option String

/-- Outcome of one run of `bump_version`: the lines printed to stdout, the
text written to `pyproject.toml` (if any), whether `git add` was invoked,
whether it succeeded, and the uncaught exception (if any). -/
structure RunResult where
  output : List String
  written : Option String
  gitAddRun : Bool
  stagedOk : Bool
  error : Option PyError
  deriving DecidableEq, Repr

/-- One entry of `git diff --cached --name-only` output:
`raw.strip().replace("\\", "/")`. -/
def normalizeEntry (raw : List Char) : List Char :=
  (stripChars raw).map (fun c => if c = '\\' then '/' else c)

/-- `_list_staged_files` from `scripts/bump_version.py`: a failed `git diff`
yields `[]`; otherwise split the output into lines, normalize each, and keep
the non-empty ones. -/
def listStagedFiles (env : Env) : List String :=
  match env.gitDiffCached with
  | .error _ => []
  | .ok out =>
    (((splitOnCharL '\n' out.data).map normalizeEntry).filter (fun l => !l.isEmpty)).map
      String.mk

/-- `_has_prefix` from `scripts/bump_version.py`:
`any(path.startswith(prefix) for path in paths)`. -/
def anyStartsWith (paths : List String) (pre : String) : Bool :=
  paths.any (fun p => isPre pre.data p.data)

/-- Python `"pyproject.toml" in staged_files`. -/
def containsStr (l : List String) (s : String) : Bool :=
  l.any (fun x => decide (x = s))

/-- `_read_version_from_git("HEAD:pyproject.toml")`: a failed `git show` is
absorbed into `None`; a `git show` that succeeds but yields text on which
`tomllib` fails raises. -/
def readVersionFromGit (env : Env) : Except PyError (Option String) :=
  match env.gitShowHead with
  | .error _ => .ok none
  | .ok out =>
    match env.tomlVersion out with
    | none => .error .tomlError
    | some v => .ok (some v)

/-- `_read_version_from_path(PYPROJECT)`: parse the on-disk manifest;
a `tomllib` failure raises. -/
def readVersionFromPath (env : Env) : Except PyError String :=
  match env.tomlVersion env.pyproject with
  | none => .error .tomlError
  | some v => .ok v

/-- The guard `if head_version and current_version != head_version:` —
Python truthiness makes both `None` and the empty string falsy. -/
def alreadyBumped (headVersion : Option String) (currentVersion : String) : Bool :=
  match headVersion with
  | none => false
  | some h => decide (h ≠ "") && decide (currentVersion ≠ h)

/-- `bump_version` from `scripts/bump_version.py`, step for step:
list the staged files; skip when nothing relevant is staged; read the
committed (`HEAD`) and working manifest versions; skip when a committed
version exists and the working version already differs from it; otherwise
increment the patch component, rewrite the manifest, write it to disk, and
re-stage it (a `git add` failure raises after the file is written). -/
def bumpVersion (env : Env) : RunResult :=
  if (listStagedFiles env).isEmpty then
    ⟨["No staged files detected, skipping version bump"], none, false, false, none⟩
  else if !(anyStartsWith (listStagedFiles env) "src/"
            || containsStr (listStagedFiles env) "pyproject.toml") then
    ⟨["No src/ or pyproject.toml changes staged, skipping version bump"], none, false, false,
      none⟩
  else
    match readVersionFromGit env with
    | .error e => ⟨[], none, false, false, some e⟩
    | .ok headVersion =>
      match readVersionFromPath env with
      | .error e => ⟨[], none, false, false, some e⟩
      | .ok currentVersion =>
        if alreadyBumped headVersion currentVersion then
          if containsStr (listStagedFiles env) "pyproject.toml" then
            ⟨["pyproject.toml staged with version change; assuming manual bump"], none, false,
              false, none⟩
          else
            ⟨["Version already bumped in working tree; stage pyproject.toml to include it"],
              none, false, false, none⟩
        else
          match incrementPatch currentVersion with
          | .error e => ⟨[], none, false, false, some e⟩
          | .ok newVersion =>
            match updateVersionLine env.pyproject newVersion with
            | .error e => ⟨[], none, false, false, some e⟩
            | .ok updated =>
              if env.gitAddOk then
                ⟨["Version bumped to " ++ newVersion], some updated, true, true, none⟩
              else
                ⟨[], some updated, true, false,
                  some (.runtimeError "Failed to stage pyproject.toml after bumping version")⟩

/-! ## A concrete `tomllib` stand-in

The script treats `tomllib` as an external collaborator; the claims'
concrete runs need one concrete instance of it.  `simpleToml` extracts
`project.version` from plain single-level manifests (a `[project]` header
line followed by `key = "value"` lines); on the concrete manifests used
below it agrees with `tomllib`. -/

/-- Extract the quoted value from a stripped `version = "..."` line. -/
def parseVersionLineL (l : List Char) : Option (List Char) :=
  match dropLit "version".data (stripChars l) with
  | none => none
  | some r1 =>
    match stripChars r1 with
    | '=' :: r2 =>
      match stripChars r2 with
      | '"' :: vs =>
        match vs.getLast? with
        | some '"' => some vs.dropLast
        | _ => none
      | _ => none
    | _ => none

/-- Walk the manifest lines, tracking whether we are inside `[project]`. -/
def tomlFind : List (List Char) → Bool → Option (List Char)
  | [], _ => none
  | l :: rest, inProj =>
    if stripChars l = "[project]".data then tomlFind rest true
    else
      match stripChars l with
      | '[' :: _ => tomlFind rest false
      | _ =>
        match inProj, parseVersionLineL l with
        | true, some v => some v
        | _, _ => tomlFind rest inProj

/-- The stand-in for `tomllib.loads(text)["project"]["version"]`. -/
def simpleToml (text : String) : Option String :=
  (tomlFind (splitOnCharL '\n' text.data) false).map String.mk

/-! ## Concrete states used in the witnesses and counterexamples -/

/-- A plain manifest whose `project.version` is `"0.1.0"`. -/
def manifest0 : String := "[project]\nversion = \"0.1.0\"\nname = \"demo\"\n"

/-- `manifest0` after the version is rewritten to `"0.1.1"`. -/
def manifest1 : String := "[project]\nversion = \"0.1.1\"\nname = \"demo\"\n"

/-- A clean pre-commit state: `src/module.py` staged, committed and working
versions both `"0.1.0"`. -/
def envRun1 : Env := ⟨.ok "src/module.py\n", .ok manifest0, true, manifest0, simpleToml⟩

/-- The state right after `bumpVersion envRun1`: the manifest was rewritten
to `"0.1.1"` and re-staged; no commit has happened, so `HEAD` still holds
`manifest0`. -/
def envRun2 : Env :=
  ⟨.ok "src/module.py\npyproject.toml\n", .ok manifest0, true, manifest1, simpleToml⟩

/-- `manifest0` after two bumps. -/
def manifest2 : String := "[project]\nversion = \"0.1.2\"\nname = \"demo\"\n"

/-- A state whose `git show HEAD:pyproject.toml` fails (e.g. no prior
commit) while `src/module.py` is staged. -/
def envHeadFail : Env := ⟨.ok "src/module.py\n", .error (), true, manifest0, simpleToml⟩

/-- A later pre-first-commit state: `git show` still fails, the manifest was
already bumped to `"0.1.1"` and re-staged by an earlier run. -/
def envHeadFail2 : Env :=
  ⟨.ok "src/module.py\npyproject.toml\n", .error (), true, manifest1, simpleToml⟩

/-- A state where `git diff --cached` itself fails, so no staged files are
seen. -/
def envNothing : Env := ⟨.error (), .ok manifest0, true, manifest0, simpleToml⟩

/-- A state where the re-staging `git add` fails. -/
def envAddFail : Env := ⟨.ok "src/module.py\n", .ok manifest0, false, manifest0, simpleToml⟩

/-- A state where the working version was already bumped by hand (committed
`"0.1.0"`, working `"0.1.1"`) and only `src/module.py` is staged. -/
def envManual : Env := ⟨.ok "src/module.py\n", .ok manifest0, true, manifest1, simpleToml⟩

/-- A manifest with a trailing space after the version value's closing
quote. -/
def spacedManifest : String := "[project]\nversion = \"1.2.3\" \nname = \"demo\"\n"

/-- What a byte-preserving rewrite of `spacedManifest` to `"1.2.4"` would
be: only the five value bytes change, the trailing space survives. -/
def spacedManifestSpecRewrite : String := "[project]\nversion = \"1.2.4\" \nname = \"demo\"\n"

/-- What `_update_version_line` actually produces on `spacedManifest`: the
trailing space is part of the regex match and is dropped. -/
def spacedManifestActual : String := "[project]\nversion = \"1.2.4\"\nname = \"demo\"\n"

/-- `s` parses under Python `int()` to a non-negative value. -/
def isNonNegIntStr (s : String) : Bool :=
  match pyInt s with
  | some n => decide (0 ≤ n)
  | none => false

/-- `s` is a version string in the spec's sense: exactly three dot-separated
non-negative integer components. -/
def isVersionString (s : String) : Bool :=
  match pySplitDot s with
  | [a, b, c] => isNonNegIntStr a && isNonNegIntStr b && isNonNegIntStr c
  | _ => false

/-- The status lines of the four non-bump terminal outcomes. -/
def skipMessages : List String :=
  ["No staged files detected, skipping version bump",
   "No src/ or pyproject.toml changes staged, skipping version bump",
   "pyproject.toml staged with version change; assuming manual bump",
   "Version already bumped in working tree; stage pyproject.toml to include it"]

/-! ## Path lemmas for `bumpVersion` -/

lemma run_empty (env : Env) (hE : (listStagedFiles env).isEmpty = true) :
    bumpVersion env =
      ⟨["No staged files detected, skipping version bump"], none, false, false, none⟩ := by
  simp [bumpVersion, hE]

lemma run_irrelevant (env : Env) (hE : (listStagedFiles env).isEmpty = false)
    (hRel : (anyStartsWith (listStagedFiles env) "src/"
      || containsStr (listStagedFiles env) "pyproject.toml") = false) :
    bumpVersion env =
      ⟨["No src/ or pyproject.toml changes staged, skipping version bump"], none, false, false,
        none⟩ := by
  simp [bumpVersion, hE, hRel]

lemma run_guard (env : Env) (hv : Option String) (w : String)
    (hE : (listStagedFiles env).isEmpty = false)
    (hRel : (anyStartsWith (listStagedFiles env) "src/"
      || containsStr (listStagedFiles env) "pyproject.toml") = true)
    (hg : readVersionFromGit env = .ok hv)
    (hp : readVersionFromPath env = .ok w)
    (hAB : alreadyBumped hv w = true) :
    bumpVersion env =
      (if containsStr (listStagedFiles env) "pyproject.toml" then
        ⟨["pyproject.toml staged with version change; assuming manual bump"], none, false,
          false, none⟩
      else
        ⟨["Version already bumped in working tree; stage pyproject.toml to include it"], none,
          false, false, none⟩) := by
  simp [bumpVersion, hE, hRel, hg, hp, hAB]

lemma run_bump (env : Env) (hv : Option String) (w nv upd : String)
    (hE : (listStagedFiles env).isEmpty = false)
    (hRel : (anyStartsWith (listStagedFiles env) "src/"
      || containsStr (listStagedFiles env) "pyproject.toml") = true)
    (hg : readVersionFromGit env = .ok hv)
    (hp : readVersionFromPath env = .ok w)
    (hAB : alreadyBumped hv w = false)
    (hInc : incrementPatch w = .ok nv)
    (hUpd : updateVersionLine env.pyproject nv = .ok upd) :
    bumpVersion env =
      (if env.gitAddOk then ⟨["Version bumped to " ++ nv], some upd, true, true, none⟩
       else ⟨[], some upd, true, false,
         some (.runtimeError "Failed to stage pyproject.toml after bumping version")⟩) := by
  cases hAdd : env.gitAddOk <;> simp [bumpVersion, hE, hRel, hg, hp, hAB, hInc, hUpd, hAdd]

/-! ## Validation of the embedding on concrete inputs

Each equality below was cross-checked against the behaviour of the original
Python functions (`re.sub` with `VERSION_LINE`, `int()`, `str.split`,
`tomllib`) on the same input. -/
example : incrementPatch "1.2.3" = .ok "1.2.4" := by decide
example : incrementPatch "0.1.0" = .ok "0.1.1" := by decide
example : incrementPatch "a.b.3" = .ok "a.b.4" := by decide
example : (incrementPatch "1.2").isOk = false := by decide
example : (incrementPatch "1.2.3.4").isOk = false := by decide
example : (incrementPatch "1.2.x").isOk = false := by decide
example : pyInt " 12 " = some 12 := by decide
example : pyInt "1_0" = some 10 := by decide
example : pyInt "1__0" = none := by decide
example : pyInt "" = none := by decide

example :
    updateVersionLine "[project]\nversion = \"0.1.0\"\nname = \"demo\"\n" "0.1.1" =
      .ok "[project]\nversion = \"0.1.1\"\nname = \"demo\"\n" := by decide
example :
    updateVersionLine "[project]\nversion = \"1.2.3\" \nname = \"demo\"\n" "1.2.4" =
      .ok "[project]\nversion = \"1.2.4\"\nname = \"demo\"\n" := by decide
example :
    updateVersionLine "[project]\nname = \"demo\"\n" "1.2.4" =
      .error (.runtimeError "Failed to locate version line in pyproject.toml") := by decide
example :
    updateVersionLine "version = \"1.2.3\"\n" "1.2.4" = .ok "version = \"1.2.4\"" := by decide
example :
    updateVersionLine "version = \"1.2.3\"\n\nx\n" "1.2.4" = .ok "version = \"1.2.4\"\nx\n" := by
  decide
example :
    updateVersionLine "  version   =  \"9\"\nrest\n" "10" = .ok "  version   =  \"10\"\nrest\n" := by
  decide
example :
    updateVersionLine "version = \"1.2.3\"\nx\n" "1.2.3" =
      .error (.runtimeError "Failed to locate version line in pyproject.toml") := by decide
example :
    updateVersionLine "version = \"1.2.3\"\n" "1.2.3" = .ok "version = \"1.2.3\"" := by decide
example :
    updateVersionLine "version = \"a\" \"b\"\nx\n" "NEW" = .ok "version = \"NEW\"\nx\n" := by decide
example :
    updateVersionLine "vversion = \"1\"\nversion = \"2\"\nz\n" "9" =
      .ok "vversion = \"1\"\nversion = \"9\"\nz\n" := by decide
example :
    updateVersionLine "version = \"1.2.3\"\t \nnext\n" "7" = .ok "version = \"7\"\nnext\n" := by
  decide
example :
    updateVersionLine "version = \"1.2.3\"" "9.9.9" = .ok "version = \"9.9.9\"" := by decide
example :
    updateVersionLine "junk\n  \nversion = \"3\"\nq\n" "4" =
      .ok "junk\n  \nversion = \"4\"\nq\n" := by decide
example :
    updateVersionLine "version = \"unterminated\nversion = \"5\"\nq\n" "6" =
      .ok "version = \"unterminated\nversion = \"6\"\nq\n" := by decide

example : simpleToml "[project]\nversion = \"0.1.0\"\nname = \"demo\"\n" = some "0.1.0" := by
  decide
example : simpleToml "[project]\nversion = \"0.1.1\"\nname = \"demo\"\n" = some "0.1.1" := by
  decide
example : simpleToml "[tool.x]\nversion = \"9\"\n" = none := by decide
example : simpleToml "" = none := by decide

example :
    bumpVersion envRun1 = ⟨["Version bumped to 0.1.1"], some manifest1, true, true, none⟩ := by
  decide
example :
    bumpVersion envRun2 =
      ⟨["pyproject.toml staged with version change; assuming manual bump"], none, false, false,
        none⟩ := by decide
example :
    bumpVersion ⟨.error (), .ok manifest0, true, manifest0, simpleToml⟩ =
      ⟨["No staged files detected, skipping version bump"], none, false, false, none⟩ := by
  decide
example :
    bumpVersion ⟨.ok "README.md\ndocs/a.md\n", .ok manifest0, true, manifest0, simpleToml⟩ =
      ⟨["No src/ or pyproject.toml changes staged, skipping version bump"], none, false, false,
        none⟩ := by decide
example :
    bumpVersion ⟨.ok "src/module.py\n", .error (), true, manifest0, simpleToml⟩ =
      ⟨["Version bumped to 0.1.1"], some manifest1, true, true, none⟩ := by decide
example :
    bumpVersion ⟨.ok "src/module.py\n", .ok manifest0, false, manifest0, simpleToml⟩ =
      ⟨[], some manifest1, true, false,
        some (.runtimeError "Failed to stage pyproject.toml after bumping version")⟩ := by
  decide

/-! ## Supporting lemmas -/

lemma splitAtLastNewline_append :
    ∀ {run a k : List Char}, splitAtLastNewline run = some (a, k) → run = a ++ k := by
  intro run
  induction run with
  | nil => intro a k h; simp [splitAtLastNewline] at h
  | cons c rest ih =>
    intro a k h
    unfold splitAtLastNewline at h
    cases hp : splitAtLastNewline rest with
    | some p =>
      obtain ⟨a2, k2⟩ := p
      rw [hp] at h
      simp only [Option.some.injEq, Prod.mk.injEq] at h
      obtain ⟨rfl, rfl⟩ := h
      simp [ih hp]
    | none =>
      rw [hp] at h
      by_cases hc : c = '\n'
      · simp only [if_pos hc, Option.some.injEq, Prod.mk.injEq] at h
        obtain ⟨rfl, rfl⟩ := h
        rfl
      · simp [hc] at h

lemma tailConsume_split {rest rest2 : List Char} (h : tailConsume rest = some rest2) :
    ∃ ws, rest = ws ++ rest2 ∧ ws.all isPySpace = true := by
  unfold tailConsume at h
  split at h
  · rename_i htl
    simp only [Option.some.injEq] at h
    subst h
    refine ⟨rest, by simp, ?_⟩
    have hr : rest.takeWhile isPySpace ++ rest.dropWhile isPySpace = rest :=
      List.takeWhile_append_dropWhile _ _
    rw [List.isEmpty_iff] at htl
    rw [htl, List.append_nil] at hr
    conv_lhs => rw [← hr]
    exact List.all_takeWhile
  · split at h
    · rename_i a keep hp
      simp only [Option.some.injEq] at h
      subst h
      refine ⟨a, ?_, ?_⟩
      · have hr : rest.takeWhile isPySpace ++ rest.dropWhile isPySpace = rest :=
          List.takeWhile_append_dropWhile _ _
        rw [splitAtLastNewline_append hp] at hr
        conv_lhs => rw [← hr]
        rw [List.append_assoc]
      · have hall : (rest.takeWhile isPySpace).all isPySpace = true := List.all_takeWhile
        rw [splitAtLastNewline_append hp, List.all_append] at hall
        exact (Bool.and_eq_true_iff.mp hall).1
    · exact absurd h (by simp)

lemma findClose_split :
    ∀ {cs g2 rest : List Char}, findClose cs = some (g2, rest) →
      ∃ ws, cs = g2 ++ '"' :: (ws ++ rest) ∧ ws.all isPySpace = true ∧ '\n' ∉ g2 := by
  intro cs
  induction cs with
  | nil => intro g2 rest h; simp [findClose] at h
  | cons c tl ih =>
    intro g2 rest h
    unfold findClose at h
    split at h
    · exact absurd h (by simp)
    · rename_i hnl
      split at h
      · rename_i hq
        cases htc : tailConsume tl with
        | some rest2 =>
          rw [htc] at h
          simp only [Option.some.injEq, Prod.mk.injEq] at h
          obtain ⟨rfl, rfl⟩ := h
          obtain ⟨ws, hws, hall⟩ := tailConsume_split htc
          exact ⟨ws, by simp [hq, hws], hall, by simp⟩
        | none =>
          rw [htc] at h
          rw [Option.map_eq_some'] at h
          obtain ⟨⟨p1, p2⟩, hfc, hpe⟩ := h
          simp only [Prod.mk.injEq] at hpe
          obtain ⟨rfl, rfl⟩ := hpe
          obtain ⟨ws, hws, hall, hnm⟩ := ih hfc
          exact ⟨ws, by simp [hws], hall, by
            simp only [List.mem_cons, not_or]
            exact ⟨fun hcc => hnl hcc.symm, hnm⟩⟩
      · rw [Option.map_eq_some'] at h
        obtain ⟨⟨p1, p2⟩, hfc, hpe⟩ := h
        simp only [Prod.mk.injEq] at hpe
        obtain ⟨rfl, rfl⟩ := hpe
        obtain ⟨ws, hws, hall, hnm⟩ := ih hfc
        exact ⟨ws, by simp [hws], hall, by
            simp only [List.mem_cons, not_or]
            exact ⟨fun hcc => hnl hcc.symm, hnm⟩⟩

lemma dropLit_append :
    ∀ {lit cs rest : List Char}, dropLit lit cs = some rest → cs = lit ++ rest := by
  intro lit
  induction lit with
  | nil => intro cs rest h; simp only [dropLit, Option.some.injEq] at h; simp [h]
  | cons l ls ih =>
    intro cs rest h
    cases cs with
    | nil => simp [dropLit] at h
    | cons c cs2 =>
      unfold dropLit at h
      split at h
      · rename_i hc
        simp [hc, ih h]
      · exact absurd h (by simp)

lemma tryMatch_split {cs g1 rest : List Char} (h : tryMatch cs = some (g1, rest)) :
    ∃ ws1 ws2 ws3 g2 ws4,
      g1 = ws1 ++ "version".data ++ ws2 ++ '=' :: ws3 ++ ['"'] ∧
      cs = g1 ++ g2 ++ '"' :: (ws4 ++ rest) ∧
      ws1.all isPySpace = true ∧ ws2.all isPySpace = true ∧ ws3.all isPySpace = true ∧
      ws4.all isPySpace = true ∧ '\n' ∉ g2 := by
  unfold tryMatch at h
  cases hd : dropLit "version".data (cs.dropWhile isPySpace) with
  | none => simp [hd] at h
  | some cs2 =>
    simp only [hd] at h
    cases h3 : cs2.dropWhile isPySpace with
    | nil => simp [h3] at h
    | cons c3 cs4 =>
      simp only [h3] at h
      by_cases hc3 : c3 = '='
      · rw [if_pos hc3] at h
        subst hc3
        cases h5 : cs4.dropWhile isPySpace with
        | nil => simp [h5] at h
        | cons c5 cs6 =>
          simp only [h5] at h
          by_cases hc5 : c5 = '"'
          · rw [if_pos hc5] at h
            subst hc5
            cases hfc : findClose cs6 with
            | none => simp [hfc] at h
            | some p =>
              obtain ⟨g2, rest2⟩ := p
              simp only [hfc] at h
              simp only [Option.some.injEq, Prod.mk.injEq] at h
              obtain ⟨rfl, rfl⟩ := h
              obtain ⟨ws4, hws4, hall4, hnm⟩ := findClose_split hfc
              refine ⟨cs.takeWhile isPySpace, cs2.takeWhile isPySpace, cs4.takeWhile isPySpace,
                g2, ws4, rfl, ?_, List.all_takeWhile, List.all_takeWhile, List.all_takeWhile,
                hall4, hnm⟩
              have e1 : cs.takeWhile isPySpace ++ cs.dropWhile isPySpace = cs :=
                List.takeWhile_append_dropWhile _ _
              have e2 : cs2.takeWhile isPySpace ++ cs2.dropWhile isPySpace = cs2 :=
                List.takeWhile_append_dropWhile _ _
              have e3 : cs4.takeWhile isPySpace ++ cs4.dropWhile isPySpace = cs4 :=
                List.takeWhile_append_dropWhile _ _
              conv_lhs => rw [← e1, dropLit_append hd, ← e2, h3, ← e3, h5, hws4]
              simp
          · rw [if_neg hc5] at h
            exact absurd h (by simp)
      · rw [if_neg hc3] at h
        exact absurd h (by simp)

/-- Shape of a successful first-match substitution: the output splices
`g1 ++ newV ++ '"'` in place of the matched region
`g1 ++ g2 ++ '"' ++ ws`, preserving the prefix before the match and the
suffix after it. -/
lemma regexSubAux_split {newV : List Char} :
    ∀ {b : Bool} {cs out : List Char}, regexSubAux newV b cs = some out →
      ∃ pre g1 g2 ws rest,
        cs = pre ++ g1 ++ g2 ++ '"' :: (ws ++ rest) ∧
        out = pre ++ g1 ++ newV ++ '"' :: rest ∧
        (∃ ws1 ws2 ws3, g1 = ws1 ++ "version".data ++ ws2 ++ '=' :: ws3 ++ ['"'] ∧
          ws1.all isPySpace = true ∧ ws2.all isPySpace = true ∧ ws3.all isPySpace = true) ∧
        ws.all isPySpace = true ∧ '\n' ∉ g2 := by
  intro b cs
  induction cs generalizing b with
  | nil =>
    intro out h
    cases b <;> simp [regexSubAux] at h
  | cons c tl ih =>
    intro out h
    cases b with
    | true =>
      rw [show regexSubAux newV true (c :: tl) =
          (match tryMatch (c :: tl) with
           | some (g1, r2) => some (g1 ++ newV ++ '"' :: r2)
           | none => (regexSubAux newV (c = '\n') tl).map (c :: ·)) from rfl] at h
      cases htm : tryMatch (c :: tl) with
      | some p =>
        obtain ⟨g1, rest⟩ := p
        rw [htm] at h
        simp only [Option.some.injEq] at h
        subst h
        obtain ⟨ws1, ws2, ws3, g2, ws4, hg1, hcs, a1, a2, a3, a4, hnm⟩ := tryMatch_split htm
        exact ⟨[], g1, g2, ws4, rest, by simpa using hcs, by simp,
          ⟨ws1, ws2, ws3, hg1, a1, a2, a3⟩, a4, hnm⟩
      | none =>
        rw [htm] at h
        rw [Option.map_eq_some'] at h
        obtain ⟨out2, hrec, rfl⟩ := h
        obtain ⟨pre, g1, g2, ws, rest, hcs, hout, hshape, hws, hnm⟩ := ih hrec
        exact ⟨c :: pre, g1, g2, ws, rest, by simp [hcs], by simp [hout], hshape, hws, hnm⟩
    | false =>
      unfold regexSubAux at h
      rw [if_neg (by simp)] at h
      rw [Option.map_eq_some'] at h
      obtain ⟨out2, hrec, rfl⟩ := h
      obtain ⟨pre, g1, g2, ws, rest, hcs, hout, hshape, hws, hnm⟩ := ih hrec
      exact ⟨c :: pre, g1, g2, ws, rest, by simp [hcs], by simp [hout], hshape, hws, hnm⟩

lemma digitChar_facts : ∀ m, m < 10 →
    (Nat.digitChar m).isDigit = true ∧ digitVal (Nat.digitChar m) = m := by decide

lemma toDigitsCore_append (fuel : Nat) :
    ∀ (n : Nat) (ds : List Char),
      Nat.toDigitsCore 10 fuel n ds = Nat.toDigitsCore 10 fuel n [] ++ ds := by
  induction fuel with
  | zero => intro n ds; rfl
  | succ fuel ih =>
    intro n ds
    simp only [Nat.toDigitsCore]
    by_cases h : n / 10 = 0
    · simp [h]
    · rw [if_neg h, if_neg h, ih (n / 10) (Nat.digitChar (n % 10) :: ds),
        ih (n / 10) [Nat.digitChar (n % 10)]]
      simp

lemma toDigitsCore_spec (fuel : Nat) :
    ∀ n, n < fuel →
      (Nat.toDigitsCore 10 fuel n []).all Char.isDigit = true ∧
      valDigits (Nat.toDigitsCore 10 fuel n []) = n ∧
      Nat.toDigitsCore 10 fuel n [] ≠ [] := by
  induction fuel with
  | zero => intro n h; omega
  | succ fuel ih =>
    intro n h
    simp only [Nat.toDigitsCore]
    by_cases h0 : n / 10 = 0
    · have hn10 : n < 10 := by omega
      rw [if_pos h0]
      obtain ⟨hd, hv⟩ := digitChar_facts (n % 10) (by omega)
      refine ⟨by simp [hd], ?_, by simp⟩
      simp [valDigits, hv]
      omega
    · rw [if_neg h0]
      have hrec : n / 10 < fuel := by omega
      obtain ⟨ha, hv, hne⟩ := ih (n / 10) hrec
      rw [toDigitsCore_append fuel (n / 10) [Nat.digitChar (n % 10)]]
      obtain ⟨hd, hdv⟩ := digitChar_facts (n % 10) (by omega)
      refine ⟨?_, ?_, by simp [hne]⟩
      · rw [List.all_append, ha]
        simp [hd]
      · rw [valDigits, List.foldl_append]
        have : (Nat.toDigitsCore 10 fuel (n / 10) []).foldl
            (fun a c => a * 10 + digitVal c) 0 = n / 10 := hv
        rw [this]
        simp [hdv]
        omega

lemma digit_not_space {c : Char} (hd : c.isDigit = true) : isPySpace c = false := by
  by_contra hs
  rw [Bool.not_eq_false] at hs
  simp only [isPySpace, Bool.or_eq_true, decide_eq_true_eq] at hs
  rcases hs with ((((h1 | h1) | h1) | h1) | h1) | h1 <;> subst h1 <;>
    exact absurd hd (by decide)

lemma digit_not_sign {c : Char} (hd : c.isDigit = true) : c ≠ '+' ∧ c ≠ '-' := by
  constructor <;> rintro rfl <;> exact absurd hd (by decide)

lemma dropWhile_of_not {l : List Char} (h : ∀ c ∈ l, isPySpace c = false) :
    l.dropWhile isPySpace = l := by
  cases l with
  | nil => rfl
  | cons c tl => simp [List.dropWhile_cons, h c (by simp)]

lemma stripChars_id {l : List Char} (h : ∀ c ∈ l, isPySpace c = false) : stripChars l = l := by
  unfold stripChars
  rw [dropWhile_of_not h]
  have h2 : l.reverse.dropWhile isPySpace = l.reverse := by
    refine dropWhile_of_not ?_
    intro c hc
    exact h c (List.mem_reverse.mp hc)
  rw [h2, List.reverse_reverse]

lemma parseDigitsAux_all :
    ∀ {l : List Char} (acc : Nat), l.all Char.isDigit = true →
      parseDigitsAux acc l = some (l.foldl (fun a c => a * 10 + digitVal c) acc) := by
  intro l
  induction l with
  | nil => intro acc _; rfl
  | cons c tl ih =>
    intro acc hall
    rw [List.all_cons, Bool.and_eq_true] at hall
    obtain ⟨hc, htl⟩ := hall
    unfold parseDigitsAux
    rw [if_pos hc, ih _ htl]
    simp only [List.foldl_cons]
    rfl

lemma parseDigits_all {l : List Char} (hne : l ≠ []) (hall : l.all Char.isDigit = true) :
    parseDigits l = some (valDigits l) := by
  cases l with
  | nil => exact absurd rfl hne
  | cons c tl =>
    rw [List.all_cons, Bool.and_eq_true] at hall
    obtain ⟨hc, htl⟩ := hall
    have hred : parseDigits (c :: tl) =
        if c.isDigit then parseDigitsAux (c.toNat - 48) tl else none := rfl
    rw [hred, if_pos hc, parseDigitsAux_all _ htl]
    simp [valDigits, List.foldl_cons, digitVal]

lemma pyInt_natRepr (m : Nat) : pyInt (Nat.repr m) = some (Int.ofNat m) := by
  obtain ⟨hall0, hval0, hne0⟩ := toDigitsCore_spec (m + 1) m (Nat.lt_succ_self m)
  have hall : (Nat.toDigits 10 m).all Char.isDigit = true := hall0
  have hval : valDigits (Nat.toDigits 10 m) = m := hval0
  have hne : Nat.toDigits 10 m ≠ [] := hne0
  have hdata : (Nat.repr m).data = Nat.toDigits 10 m := rfl
  unfold pyInt
  rw [hdata, stripChars_id (fun c hc => digit_not_space (List.all_eq_true.mp hall c hc))]
  cases hlist : Nat.toDigits 10 m with
  | nil => exact absurd hlist hne
  | cons c tl =>
    rw [hlist] at hall hval
    rw [List.all_cons, Bool.and_eq_true] at hall
    obtain ⟨hc, htl⟩ := hall
    obtain ⟨hplus, hminus⟩ := digit_not_sign hc
    have hred : pyIntCore (c :: tl) =
        (if c = '+' then (parseDigits tl).map (fun n => (n : Int))
         else if c = '-' then (parseDigits tl).map (fun n => -(n : Int))
         else (parseDigits (c :: tl)).map (fun n => (n : Int))) := rfl
    rw [hred, if_neg hplus, if_neg hminus,
      parseDigits_all (by simp) (by simp [hc, htl])]
    simp [hval]

lemma pyInt_toString_succ (n : Int) (hn : 0 ≤ n) : pyInt (toString (n + 1)) = some (n + 1) := by
  obtain ⟨m, rfl⟩ := Int.eq_ofNat_of_zero_le hn
  have h1 : ((m : Int) + 1) = ((m + 1 : Nat) : Int) := by push_cast; ring
  rw [h1]
  have h2 : toString ((m + 1 : Nat) : Int) = Nat.repr (m + 1) := rfl
  rw [h2, pyInt_natRepr]
  rfl

lemma splitOnCharL_ne_nil (sep : Char) : ∀ l, splitOnCharL sep l ≠ [] := by
  intro l
  cases l with
  | nil => simp [splitOnCharL]
  | cons c tl =>
    unfold splitOnCharL
    by_cases hc : c = sep
    · simp [hc]
    · rw [if_neg hc]
      cases hr : splitOnCharL sep tl <;> simp

lemma mem_splitOnCharL (sep : Char) :
    ∀ l piece, piece ∈ splitOnCharL sep l → sep ∉ piece := by
  intro l
  induction l with
  | nil =>
    intro piece hp
    simp only [splitOnCharL, List.mem_singleton] at hp
    simp [hp]
  | cons c tl ih =>
    intro piece hp
    unfold splitOnCharL at hp
    by_cases hc : c = sep
    · rw [if_pos hc] at hp
      rcases List.mem_cons.mp hp with rfl | hmem
      · simp
      · exact ih piece hmem
    · rw [if_neg hc] at hp
      cases hr : splitOnCharL sep tl with
      | nil => exact absurd hr (splitOnCharL_ne_nil sep tl)
      | cons h t =>
        rw [hr] at hp
        rcases List.mem_cons.mp hp with rfl | hmem
        · intro hin
          rcases List.mem_cons.mp hin with rfl | hin2
          · exact hc rfl
          · exact ih h (by rw [hr]; simp) hin2
        · exact ih piece (by rw [hr]; simp [hmem])

lemma splitOnCharL_sep_cons (sep : Char) :
    ∀ xs rest, sep ∉ xs →
      splitOnCharL sep (xs ++ sep :: rest) = xs :: splitOnCharL sep rest := by
  intro xs
  induction xs with
  | nil => intro rest _; simp [splitOnCharL]
  | cons x xs ih =>
    intro rest hmem
    have hx : x ≠ sep := fun h => hmem (by simp [h])
    have hxs : sep ∉ xs := fun h => hmem (by simp [h])
    simp only [List.cons_append]
    have heq : splitOnCharL sep (x :: (xs ++ sep :: rest)) =
        (if x = sep then [] :: splitOnCharL sep (xs ++ sep :: rest)
         else
           match splitOnCharL sep (xs ++ sep :: rest) with
           | h :: t => (x :: h) :: t
           | [] => [[x]]) := rfl
    rw [heq, if_neg hx, ih rest hxs]

lemma splitOnCharL_no_sep (sep : Char) :
    ∀ l, sep ∉ l → splitOnCharL sep l = [l] := by
  intro l
  induction l with
  | nil => intro _; rfl
  | cons c tl ih =>
    intro hmem
    have hc : c ≠ sep := fun h => hmem (by simp [h])
    have htl : sep ∉ tl := fun h => hmem (by simp [h])
    unfold splitOnCharL
    rw [if_neg hc, ih htl]

lemma pySplitDot_inv {s a b c : String} (h : pySplitDot s = [a, b, c]) :
    splitOnCharL '.' s.data = [a.data, b.data, c.data] := by
  unfold pySplitDot at h
  rcases hl : splitOnCharL '.' s.data with _ | ⟨p1, _ | ⟨p2, _ | ⟨p3, _ | ⟨p4, t⟩⟩⟩⟩ <;>
    rw [hl] at h
  · exact absurd h (by simp)
  · exact absurd h (by simp)
  · exact absurd h (by simp)
  · simp only [List.map_cons, List.map_nil, List.cons.injEq, and_true] at h
    obtain ⟨h1, h2, h3⟩ := h
    rw [← h1, ← h2, ← h3]
  · exact absurd h (by simp)

lemma pySplitDot_join {a b : String} {d : List Char}
    (ha : '.' ∉ a.data) (hb : '.' ∉ b.data) (hd : '.' ∉ d) :
    pySplitDot (a ++ "." ++ b ++ "." ++ String.mk d) = [a, b, String.mk d] := by
  unfold pySplitDot
  have hdata : (a ++ "." ++ b ++ "." ++ String.mk d).data
      = a.data ++ '.' :: (b.data ++ '.' :: d) := by
    simp [String.data_append]
  rw [hdata, splitOnCharL_sep_cons _ _ _ ha, splitOnCharL_sep_cons _ _ _ hb,
    splitOnCharL_no_sep _ _ hd]
  rfl

/-! ## The claims -/

/-- C1: whenever a committed version exists (a well-formed version string,
hence truthy) and the working manifest version differs from it — whether or
not the manifest itself is staged — `bump_version` performs no bump: the
manifest is not rewritten, `git add` is not invoked, no exception escapes,
and exactly one skip status line is printed. -/
theorem alreadyBumped_never_rewrites (env : Env) (h w : String)
    (hg : readVersionFromGit env = .ok (some h))
    (hv : isVersionString h = true)
    (hp : readVersionFromPath env = .ok w)
    (hw : w ≠ h) :
    (bumpVersion env).written = none ∧ (bumpVersion env).gitAddRun = false ∧
    (bumpVersion env).error = none ∧
    ∃ msg, msg ∈ skipMessages ∧ (bumpVersion env).output = [msg] := by
  have hne : h ≠ "" := by
    rintro rfl
    exact absurd hv (by decide)
  have hAB : alreadyBumped (some h) w = true := by
    simp [alreadyBumped, hne, hw]
  cases hE : (listStagedFiles env).isEmpty with
  | true =>
    rw [run_empty env hE]
    exact ⟨rfl, rfl, rfl, _, by simp [skipMessages], rfl⟩
  | false =>
    cases hRel : (anyStartsWith (listStagedFiles env) "src/"
        || containsStr (listStagedFiles env) "pyproject.toml") with
    | false =>
      rw [run_irrelevant env hE hRel]
      exact ⟨rfl, rfl, rfl, _, by simp [skipMessages], rfl⟩
    | true =>
      rw [run_guard env (some h) w hE hRel hg hp hAB]
      cases hPy : containsStr (listStagedFiles env) "pyproject.toml" with
      | true =>
        rw [if_pos rfl]
        exact ⟨rfl, rfl, rfl, _, by simp [skipMessages], rfl⟩
      | false =>
        rw [if_neg (by simp)]
        exact ⟨rfl, rfl, rfl, _, by simp [skipMessages], rfl⟩

/-- Witness for C1 at a concrete state: committed `"0.1.0"`, working
`"0.1.1"`, `src/module.py` staged. -/
theorem alreadyBumped_never_rewrites_witness :
    (bumpVersion envManual).written = none ∧ (bumpVersion envManual).gitAddRun = false ∧
    (bumpVersion envManual).error = none ∧
    ∃ msg, msg ∈ skipMessages ∧ (bumpVersion envManual).output = [msg] :=
  alreadyBumped_never_rewrites envManual "0.1.0" "0.1.1" (by decide) (by decide) (by decide)
    (by decide)

/-- C7: with nothing staged, or nothing staged under `src/` and the manifest
itself not staged, `bump_version` performs no manifest mutation and prints
the corresponding no-op status line. -/
theorem no_relevant_staged_no_mutation (env : Env)
    (h : listStagedFiles env = [] ∨
      (anyStartsWith (listStagedFiles env) "src/" = false ∧
        containsStr (listStagedFiles env) "pyproject.toml" = false)) :
    (bumpVersion env).written = none ∧ (bumpVersion env).gitAddRun = false ∧
    (bumpVersion env).error = none ∧
    ((bumpVersion env).output = ["No staged files detected, skipping version bump"] ∨
      (bumpVersion env).output =
        ["No src/ or pyproject.toml changes staged, skipping version bump"]) := by
  cases hE : (listStagedFiles env).isEmpty with
  | true =>
    rw [run_empty env hE]
    exact ⟨rfl, rfl, rfl, .inl rfl⟩
  | false =>
    rcases h with h | ⟨h1, h2⟩
    · rw [h] at hE
      simp at hE
    · rw [run_irrelevant env hE (by simp [h1, h2])]
      exact ⟨rfl, rfl, rfl, .inr rfl⟩

/-- Witness for C7 at a concrete state where `git diff` itself fails, so the
staged list is empty. -/
theorem no_relevant_staged_no_mutation_witness :
    listStagedFiles envNothing = [] ∧
    ((bumpVersion envNothing).written = none ∧ (bumpVersion envNothing).gitAddRun = false ∧
      (bumpVersion envNothing).error = none ∧
      ((bumpVersion envNothing).output = ["No staged files detected, skipping version bump"] ∨
        (bumpVersion envNothing).output =
          ["No src/ or pyproject.toml changes staged, skipping version bump"])) :=
  ⟨by decide, no_relevant_staged_no_mutation envNothing (.inl (by decide))⟩

/-- C8: if the run got as far as writing the rewritten manifest (so the
rewrite succeeded) and the re-staging `git add` fails, `bump_version` raises
`RuntimeError`; the manifest keeps the newly written content but is not
staged. -/
theorem restage_failure_raises (env : Env) (u : String)
    (h1 : (bumpVersion env).written = some u) (h2 : env.gitAddOk = false) :
    (bumpVersion env).gitAddRun = true ∧ (bumpVersion env).stagedOk = false ∧
    (bumpVersion env).error =
      some (.runtimeError "Failed to stage pyproject.toml after bumping version") ∧
    (bumpVersion env).written = some u := by
  cases hE : (listStagedFiles env).isEmpty with
  | true => rw [run_empty env hE] at h1; simp at h1
  | false =>
    cases hRel : (anyStartsWith (listStagedFiles env) "src/"
        || containsStr (listStagedFiles env) "pyproject.toml") with
    | false => rw [run_irrelevant env hE hRel] at h1; simp at h1
    | true =>
      rcases hg : readVersionFromGit env with e | hv
      · simp [bumpVersion, hE, hRel, hg] at h1
      · rcases hp : readVersionFromPath env with e | w
        · simp [bumpVersion, hE, hRel, hg, hp] at h1
        · cases hAB : alreadyBumped hv w with
          | true =>
            rw [run_guard env hv w hE hRel hg hp hAB] at h1
            cases hPy : containsStr (listStagedFiles env) "pyproject.toml" with
            | true => rw [if_pos hPy] at h1; simp at h1
            | false => rw [if_neg (by simp [hPy])] at h1; simp at h1
          | false =>
            rcases hInc : incrementPatch w with e | nv
            · simp [bumpVersion, hE, hRel, hg, hp, hAB, hInc] at h1
            · rcases hUpd : updateVersionLine env.pyproject nv with e | upd
              · simp [bumpVersion, hE, hRel, hg, hp, hAB, hInc, hUpd] at h1
              · rw [run_bump env hv w nv upd hE hRel hg hp hAB hInc hUpd, if_neg (by simp [h2])]
                  at h1 ⊢
                simp at h1
                simp [h1]

/-- Witness for C8 at a concrete state whose `git add` fails. -/
theorem restage_failure_raises_witness :
    (bumpVersion envAddFail).written = some manifest1 ∧ envAddFail.gitAddOk = false ∧
    ((bumpVersion envAddFail).gitAddRun = true ∧ (bumpVersion envAddFail).stagedOk = false ∧
      (bumpVersion envAddFail).error =
        some (.runtimeError "Failed to stage pyproject.toml after bumping version") ∧
      (bumpVersion envAddFail).written = some manifest1) :=
  ⟨by decide, by decide, restage_failure_raises envAddFail manifest1 (by decide) (by decide)⟩

/-- C10: when no committed version is available (`git show` failed, so the
read is absorbed into `None`) and a relevant file is staged, the
already-bumped guard is bypassed: the run increments and rewrites whatever
version the working manifest holds, with no comparison against any earlier
value. -/
theorem no_committed_version_bypasses_guard (env : Env) (w nv upd : String)
    (hg : readVersionFromGit env = .ok none)
    (hE : (listStagedFiles env).isEmpty = false)
    (hRel : (anyStartsWith (listStagedFiles env) "src/"
      || containsStr (listStagedFiles env) "pyproject.toml") = true)
    (hp : readVersionFromPath env = .ok w)
    (hInc : incrementPatch w = .ok nv)
    (hUpd : updateVersionLine env.pyproject nv = .ok upd) :
    (bumpVersion env).written = some upd ∧ (bumpVersion env).gitAddRun = true := by
  have hAB : alreadyBumped none w = false := rfl
  rw [run_bump env none w nv upd hE hRel hg hp hAB hInc hUpd]
  cases hAdd : env.gitAddOk <;> simp [hAdd]

/-- Witness for C10: no committed version and a working manifest already at
`"0.1.1"` (e.g. bumped by an earlier run before any commit) is bumped again
to `"0.1.2"`. -/
theorem no_committed_version_bypasses_guard_witness :
    readVersionFromGit envHeadFail2 = .ok none ∧
    readVersionFromPath envHeadFail2 = .ok "0.1.1" ∧
    ((bumpVersion envHeadFail2).written = some manifest2 ∧
      (bumpVersion envHeadFail2).gitAddRun = true) :=
  ⟨by decide, by decide,
    no_committed_version_bypasses_guard envHeadFail2 "0.1.1" "0.1.2" manifest2 (by decide)
      (by decide) (by decide) (by decide) (by decide) (by decide)⟩

/-- C9: end to end — staged files `["src/module.py"]`, committed version
`"0.1.0"`, working version `"0.1.0"`: the manifest is rewritten with version
`"0.1.1"`, re-staged, and the printed status line contains `"0.1.1"`. -/
theorem end_to_end_bump (env : Env) (u : String)
    (hS : listStagedFiles env = ["src/module.py"])
    (hg : readVersionFromGit env = .ok (some "0.1.0"))
    (hp : readVersionFromPath env = .ok "0.1.0")
    (hUpd : updateVersionLine env.pyproject "0.1.1" = .ok u)
    (hAdd : env.gitAddOk = true) :
    bumpVersion env = ⟨["Version bumped to 0.1.1"], some u, true, true, none⟩ ∧
    ∃ pre post, ("Version bumped to 0.1.1").data = pre ++ "0.1.1".data ++ post := by
  have hE : (listStagedFiles env).isEmpty = false := by rw [hS]; rfl
  have hRel : (anyStartsWith (listStagedFiles env) "src/"
      || containsStr (listStagedFiles env) "pyproject.toml") = true := by
    rw [hS]; decide
  have hInc : incrementPatch "0.1.0" = .ok "0.1.1" := by decide
  have hAB : alreadyBumped (some "0.1.0") "0.1.0" = false := by decide
  rw [run_bump env (some "0.1.0") "0.1.0" "0.1.1" u hE hRel hg hp hAB hInc hUpd, hAdd,
    if_pos rfl]
  exact ⟨rfl, "Version bumped to ".data, [], by decide⟩

/-- Witness for C9 at the concrete clean state. -/
theorem end_to_end_bump_witness :
    bumpVersion envRun1 = ⟨["Version bumped to 0.1.1"], some manifest1, true, true, none⟩ ∧
    ∃ pre post, ("Version bumped to 0.1.1").data = pre ++ "0.1.1".data ++ post :=
  end_to_end_bump envRun1 manifest1 (by decide) (by decide) (by decide) (by decide) rfl

/-- C3: on a version string of exactly three dot-separated non-negative
integer components, `_increment_patch` succeeds; the first two components
are kept verbatim, and the new last component is the decimal numeral of the
old value plus one (so the result again splits into the two old components
followed by the incremented third). -/
theorem incrementPatch_three_components (s a b c : String) (n : Int)
    (hsplit : pySplitDot s = [a, b, c])
    (_ha : isNonNegIntStr a = true) (_hb : isNonNegIntStr b = true)
    (hc : pyInt c = some n) (hn : 0 ≤ n) :
    incrementPatch s = .ok (a ++ "." ++ b ++ "." ++ toString (n + 1)) ∧
    pyInt (toString (n + 1)) = some (n + 1) ∧
    pySplitDot (a ++ "." ++ b ++ "." ++ toString (n + 1)) = [a, b, toString (n + 1)] := by
  refine ⟨?_, pyInt_toString_succ n hn, ?_⟩
  · simp [incrementPatch, hsplit, hc]
  · obtain ⟨m, rfl⟩ := Int.eq_ofNat_of_zero_le hn
    have hcast : ((m : Int) + 1) = ((m + 1 : Nat) : Int) := by push_cast; ring
    have hts : toString ((m : Int) + 1) = Nat.repr (m + 1) := by rw [hcast]; rfl
    have hdots : splitOnCharL '.' s.data = [a.data, b.data, c.data] := pySplitDot_inv hsplit
    have ha2 : '.' ∉ a.data :=
      mem_splitOnCharL '.' s.data a.data (by rw [hdots]; simp)
    have hb2 : '.' ∉ b.data :=
      mem_splitOnCharL '.' s.data b.data (by rw [hdots]; simp)
    obtain ⟨hall, -, -⟩ := toDigitsCore_spec (m + 2) (m + 1) (by omega)
    have hd2 : '.' ∉ (Nat.repr (m + 1)).data := by
      intro hin
      have hdig : ('.' : Char).isDigit = true := List.all_eq_true.mp hall _ hin
      exact absurd hdig (by decide)
    rw [hts]
    exact pySplitDot_join ha2 hb2 hd2

/-- Witness for C3 at `"1.2.3"`, giving `"1.2.4"`. -/
theorem incrementPatch_three_components_witness :
    (incrementPatch "1.2.3" = .ok ("1" ++ "." ++ "2" ++ "." ++ toString ((3 : Int) + 1)) ∧
      pyInt (toString ((3 : Int) + 1)) = some ((3 : Int) + 1) ∧
      pySplitDot ("1" ++ "." ++ "2" ++ "." ++ toString ((3 : Int) + 1)) =
        ["1", "2", toString ((3 : Int) + 1)]) ∧
    incrementPatch "1.2.3" = .ok "1.2.4" :=
  ⟨incrementPatch_three_components "1.2.3" "1" "2" "3" 3 (by decide) (by decide) (by decide)
    (by decide) (by decide), by decide⟩

/-- C4 counterexample: the claim says parsing fails whenever the components
are not all integers, but only the last component is ever parsed —
`"a.b.3"` has two non-integer components yet succeeds as `"a.b.4"`. -/
theorem incrementPatch_ignores_leading_components :
    pySplitDot "a.b.3" = ["a", "b", "3"] ∧ pyInt "a" = none ∧ pyInt "b" = none ∧
    incrementPatch "a.b.3" = .ok "a.b.4" := by decide

/-- C4 amended: `_increment_patch` raises `ValueError` exactly when the dot
split does not have three components or the **last** component is not an
integer; the first two components are never validated. -/
theorem incrementPatch_error_iff (s : String) :
    (∃ m, incrementPatch s = .error (.valueError m)) ↔
      ((pySplitDot s).length ≠ 3 ∨
        ∃ a b c, pySplitDot s = [a, b, c] ∧ pyInt c = none) := by
  rcases hl : pySplitDot s with _ | ⟨a, _ | ⟨b, _ | ⟨c, _ | ⟨d, t⟩⟩⟩⟩ <;>
    simp only [incrementPatch, hl]
  · simp
  · simp
  · simp
  · cases hpc : pyInt c with
    | none =>
      simp only [hpc]
      constructor
      · intro _
        exact .inr ⟨a, b, c, rfl, hpc⟩
      · intro _
        exact ⟨"invalid literal for int() with base 10: " ++ c, rfl⟩
    | some n => simp [hpc]
  · simp

/-- C5 counterexample: a state where a bump occurs (`0.1.0` → `0.1.1`),
followed by the resulting state (same `HEAD`, manifest rewritten and
re-staged, no intervening commit).  The second run does **not** increment
again: it writes nothing and prints the manual-bump skip line, and the
working version stays `"0.1.1"` — so "running twice increments twice" fails
for every state with a committed version. -/
theorem bump_then_rerun_no_double_increment :
    bumpVersion envRun1 = ⟨["Version bumped to 0.1.1"], some manifest1, true, true, none⟩ ∧
    envRun2.pyproject = manifest1 ∧
    envRun2.gitShowHead = envRun1.gitShowHead ∧
    containsStr (listStagedFiles envRun2) "pyproject.toml" = true ∧
    bumpVersion envRun2 =
      ⟨["pyproject.toml staged with version change; assuming manual bump"], none, false, false,
        none⟩ ∧
    simpleToml manifest1 = some "0.1.1" ∧ simpleToml manifest1 ≠ some "0.1.2" := by decide

/-- C5 amended: once a bump is applied, re-running before a commit does not
double-increment when a committed version exists: the committed-vs-working
guard makes the second run a skip (the unguarded repeat-bump only happens
with no committed version, cf. C10). -/
theorem second_run_skips (env env2 : Env) (u h w2 : String)
    (_h1 : (bumpVersion env).written = some u)
    (_h2 : env2.pyproject = u)
    (_h3 : env2.gitShowHead = env.gitShowHead)
    (hg : readVersionFromGit env2 = .ok (some h))
    (hv : isVersionString h = true)
    (hp : readVersionFromPath env2 = .ok w2)
    (hw : w2 ≠ h)
    (hPy : containsStr (listStagedFiles env2) "pyproject.toml" = true) :
    (bumpVersion env2).written = none ∧ (bumpVersion env2).gitAddRun = false ∧
    (bumpVersion env2).output =
      ["pyproject.toml staged with version change; assuming manual bump"] := by
  have hne : h ≠ "" := by
    rintro rfl
    exact absurd hv (by decide)
  have hAB : alreadyBumped (some h) w2 = true := by
    simp [alreadyBumped, hne, hw]
  have hE : (listStagedFiles env2).isEmpty = false := by
    cases hl : listStagedFiles env2 with
    | nil => rw [hl] at hPy; simp [containsStr] at hPy
    | cons p ps => rfl
  have hRel : (anyStartsWith (listStagedFiles env2) "src/"
      || containsStr (listStagedFiles env2) "pyproject.toml") = true := by
    simp [hPy]
  rw [run_guard env2 (some h) w2 hE hRel hg hp hAB, if_pos hPy]
  exact ⟨rfl, rfl, rfl⟩

/-- Witness for C5 (amended) on the concrete two-run scenario. -/
theorem second_run_skips_witness :
    (bumpVersion envRun2).written = none ∧ (bumpVersion envRun2).gitAddRun = false ∧
    (bumpVersion envRun2).output =
      ["pyproject.toml staged with version change; assuming manual bump"] :=
  second_run_skips envRun1 envRun2 manifest1 "0.1.0" "0.1.1" (by decide) (by decide) rfl
    (by decide) (by decide) (by decide) (by decide) (by decide)

/-- C6 counterexample: when `git show HEAD:pyproject.toml` fails but
`src/module.py` is staged, the failure is absorbed softly (`.ok none`), yet
the workflow does **not** proceed down a skip path: it bumps, writes the
manifest, and prints the bump line, which is no skip message. -/
theorem head_fetch_failure_still_bumps :
    envHeadFail.gitShowHead = .error () ∧
    readVersionFromGit envHeadFail = .ok none ∧
    bumpVersion envHeadFail =
      ⟨["Version bumped to 0.1.1"], some manifest1, true, true, none⟩ ∧
    (∀ msg ∈ skipMessages, ["Version bumped to 0.1.1"] ≠ [msg]) := by decide

/-- C6 amended: version-control query failures are absorbed softly and never
raise by themselves — a failed staged-file listing yields the empty list and
the no-op skip path, while a failed committed-content fetch merely yields a
`none` committed version (bypassing the already-bumped guard rather than
forcing a skip). -/
theorem soft_query_failures (env env2 : Env) :
    (env.gitDiffCached = .error () →
      bumpVersion env =
        ⟨["No staged files detected, skipping version bump"], none, false, false, none⟩) ∧
    (env2.gitShowHead = .error () → readVersionFromGit env2 = .ok none) := by
  constructor
  · intro hd
    have hE : (listStagedFiles env).isEmpty = true := by
      simp [listStagedFiles, hd]
    exact run_empty env hE
  · intro hs
    simp [readVersionFromGit, hs]

/-- Witness for C6 (amended) at concrete failing states. -/
theorem soft_query_failures_witness :
    bumpVersion envNothing =
      ⟨["No staged files detected, skipping version bump"], none, false, false, none⟩ ∧
    readVersionFromGit envHeadFail = .ok none :=
  ⟨(soft_query_failures envNothing envHeadFail).1 rfl,
    (soft_query_failures envNothing envHeadFail).2 rfl⟩

/-- C2 counterexample: on a manifest with a trailing space after the version
value's closing quote, the substitution succeeds but deletes that space (the
regex match swallows `\s*$`), so "every other byte of the manifest
unchanged" fails: the output is one byte shorter than the byte-preserving
rewrite the claim describes. -/
theorem updateVersionLine_not_byte_preserving :
    updateVersionLine spacedManifest "1.2.4" = .ok spacedManifestActual ∧
    spacedManifest.data =
      "[project]\nversion = \"".data ++ "1.2.3".data ++ "\" \nname = \"demo\"\n".data ∧
    spacedManifestSpecRewrite.data =
      "[project]\nversion = \"".data ++ "1.2.4".data ++ "\" \nname = \"demo\"\n".data ∧
    spacedManifestActual ≠ spacedManifestSpecRewrite ∧
    spacedManifestActual.data.length + 1 = spacedManifest.data.length := by decide

/-- C2 amended: a successful `_update_version_line` is exactly one splice:
the output replaces the lazy value group of the first `VERSION_LINE` match
with the new version and **drops the whitespace run** the trailing `\s*$`
consumed after the closing quote; every byte before the match and after the
consumed region is preserved, the result is never byte-identical to the
input, and when no match exists the function raises `RuntimeError`. -/
theorem updateVersionLine_characterized (original newV : String) :
    (∀ u, updateVersionLine original newV = .ok u →
      u ≠ original ∧
      ∃ pre g1 g2 ws rest,
        original.data = pre ++ g1 ++ g2 ++ '"' :: (ws ++ rest) ∧
        u.data = pre ++ g1 ++ newV.data ++ '"' :: rest ∧
        (∃ ws1 ws2 ws3, g1 = ws1 ++ "version".data ++ ws2 ++ '=' :: ws3 ++ ['"'] ∧
          ws1.all isPySpace = true ∧ ws2.all isPySpace = true ∧ ws3.all isPySpace = true) ∧
        ws.all isPySpace = true ∧ '\n' ∉ g2) ∧
    (versionLineSub newV original = none →
      updateVersionLine original newV =
        .error (.runtimeError "Failed to locate version line in pyproject.toml")) := by
  constructor
  · intro u h
    cases hv : versionLineSub newV original with
    | none => simp [updateVersionLine, hv] at h
    | some r =>
      simp only [updateVersionLine, hv] at h
      split at h
      · exact absurd h (by simp)
      · rename_i hne
        simp only [Except.ok.injEq] at h
        subst h
        refine ⟨hne, ?_⟩
        unfold versionLineSub at hv
        rw [Option.map_eq_some'] at hv
        obtain ⟨l, hsub, rfl⟩ := hv
        obtain ⟨pre, g1, g2, ws, rest, hcs, hout, hshape, hws, hnm⟩ := regexSubAux_split hsub
        exact ⟨pre, g1, g2, ws, rest, hcs, hout, hshape, hws, hnm⟩
  · intro hv
    simp [updateVersionLine, hv]

/-- Witness for C2 (amended) on a concrete successful rewrite. -/
theorem updateVersionLine_characterized_witness :
    ("[project]\nversion = \"9.9.9\"\nname = \"demo\"\n" : String) ≠ manifest0 ∧
    ∃ pre g1 g2 ws rest,
      manifest0.data = pre ++ g1 ++ g2 ++ '"' :: (ws ++ rest) ∧
      ("[project]\nversion = \"9.9.9\"\nname = \"demo\"\n" : String).data
        = pre ++ g1 ++ "9.9.9".data ++ '"' :: rest ∧
      (∃ ws1 ws2 ws3, g1 = ws1 ++ "version".data ++ ws2 ++ '=' :: ws3 ++ ['"'] ∧
        ws1.all isPySpace = true ∧ ws2.all isPySpace = true ∧ ws3.all isPySpace = true) ∧
      ws.all isPySpace = true ∧ '\n' ∉ g2 :=
  (updateVersionLine_characterized manifest0 "9.9.9").1
    "[project]\nversion = \"9.9.9\"\nname = \"demo\"\n" (by decide)

end BumpVersion
